import Mathlib

/-!
Verification of the diffware fileset-comparison engine.

This file gives a shallow embedding of the core comparison code of the
repository (the `helpers` package together with the `files` package, which is
the module tree the test suite and the entry point load) and proves or refutes
the frozen specification claims about it.

External effects (filesystem metadata, file contents, the tlsh library, the
readelf and objdump and cmp tools) are modelled by an explicit environment
record `Env` of total functions; the embedded functions are translated
line by line from the Python source and consult the environment exactly where
the source performs the corresponding external call.
-/

namespace Diffware

/-- Concrete class of a specialized file handle.  `files/__init__.py` registers
the specialized variants `ElfFile` and `SymlinkFile`; every other file keeps
the base class `UnpackedFile` (called `generic` here). -/
inductive FClass
  | generic
  | elf
  | symlink
deriving DecidableEq

/-- One row of the parsed `readelf --wide --section-headers` table, as consumed
by `ElfFile._load_sections` (`files/elf.py` lines 225-238): section name, type
and flag string. -/
structure ElfRow where
  name : String
  typ : String
  flags : String
deriving DecidableEq

/-- A file handle of the comparison engine (`files/generic.py`,
`UnpackedFile`).  `path` is the on-disk path (it also serves as the handle's
identity, mirroring `relative_path` equality), `cls` is the concrete
specialized class installed by `FilesetComparator._specialize_file`, and
`fuzzyHash` is the memoized value of the `fuzzy_hash` cached property
(`None` when tlsh produced no digest). -/
structure MFile where
  path : String
  cls : FClass
  fuzzyHash : Option String
deriving DecidableEq

/-- Environment of external effects.  Each field models one external call made
by the source: `stat` is `os.stat(path).st_size` (`none` encodes
`FileNotFoundError`), `content` is the byte content read from a path,
`readlink` is `os.readlink`, `tlshDiff` is `tlsh.diff` on two digests,
`tlshOf` is the tlsh digest of a byte content (`none` encodes the
`ValueError` raised by `hexdigest` on insufficient randomness), `cmpOutLen`
is the length of the output of `cmp -l path1 path2`, `elfRows` is the parsed
section-header table returned by `readelf --wide --section-headers` (a `none`
entry is a row whose parsing raises), and `elfDataOut` / `elfCodeOut` are the
regex-filtered outputs of the batched `readelf --hex-dump` and
`objdump --disassemble` commands for the given section names. -/
structure Env where
  stat : String → Option Nat
  content : String → String
  readlink : String → String
  tlshDiff : String → String → Int
  tlshOf : String → Option String
  cmpOutLen : String → String → Nat
  elfRows : String → List (Option ElfRow)
  elfDataOut : String → List String → String
  elfCodeOut : String → List String → String

/-- Configuration slice used by the matching engine
(`helpers/config.py`): the fuzzy-match distance threshold. -/
structure Config where
  fuzzy_threshold : Int

/-- Translation of `get_file_size` (`helpers/utils.py` lines 63-72): return
`os.stat(path).st_size`, or `default` when `FileNotFoundError` is raised. -/
def get_file_size (env : Env) (p : String) (dflt : Int) : Int :=
  match env.stat p with
  | some n => (n : Int)
  | none => dflt

/-- Translation of `compute_fuzzy_hash` (`helpers/utils.py` lines 98-116):
tlsh digest of the file at `p`, or `None` when the file is smaller than 512
bytes (`get_file_size` is called with its default of 0) or when `hexdigest`
raises `ValueError`. -/
def compute_fuzzy_hash (env : Env) (p : String) : Option String :=
  if 512 ≤ get_file_size env p 0 then
    env.tlshOf (env.content p)
  else
    none

/-- Byte-diff fallback of `compute_distance` (`helpers/utils.py` lines
130-144): `file_size = max(get_file_size(path1), get_file_size(path2))`,
`diff_bytes = cmp -l path1 path2` output, then
`max(int(10 * len(diff_bytes) / max(1, file_size)), 1)`.  Python's `int()` on
a non-negative float truncates, which is integer (floor) division here. -/
def fallback_distance (env : Env) (path1 path2 : String) : Int :=
  let file_size := max (get_file_size env path1 0) (get_file_size env path2 0)
  let diff := (10 * (env.cmpOutLen path1 path2 : Int)) / (max 1 file_size)
  max diff 1

/-- Translation of `compute_distance` (`helpers/utils.py` lines 119-144):
`tlsh.diff` on the two memoized fuzzy hashes, falling back to the byte-diff
distance over the handles' raw `path`s when either hash is `None`
(`tlsh.diff` then raises `TypeError`, which is caught). -/
def compute_distance (env : Env) (file1 file2 : MFile) : Int :=
  match file1.fuzzyHash, file2.fuzzyHash with
  | some h1, some h2 => env.tlshDiff h1 h2
  | _, _ => fallback_distance env file1.path file2.path

/-- Translation of `FilesetComparator._files_classes_match`
(`helpers/fileset_comparator.py` lines 178-181): the two handles' concrete
classes must be identical. -/
def files_classes_match (file1 file2 : MFile) : Bool :=
  file1.cls == file2.cls

/-- Comparison key used by `comparisons.sort(key=operator.itemgetter(0))`:
ascending order on the score component only (Python's sort is stable). -/
def score_le {α : Type} : (Int × α) → (Int × α) → Bool :=
  fun a b => a.1 ≤ b.1

/-- Translation of `FilesetComparator._match_file`
(`helpers/fileset_comparator.py` lines 183-213): score every candidate of the
same class, sort the `(score, file)` pairs ascending by score, and accept the
first (minimal) one exactly when its score is strictly below the configured
threshold.  The candidate list is taken as an argument in the order the
shuffled Python iteration produced (`random.shuffle` only permutes it). -/
def match_file (env : Env) (cfg : Config) (file : MFile) (file_set : List MFile) :
    Option MFile :=
  let comparisons :=
    (file_set.filter (fun f => files_classes_match file f)).map
      (fun f => (compute_distance env file f, f))
  if comparisons.isEmpty then
    none
  else
    match comparisons.mergeSort score_le with
    | [] => none
    | (best_score, closest_file) :: _ =>
      if best_score < cfg.fuzzy_threshold then some closest_file else none

/-- Translation of `FilesetComparator.moved_file_pairs`
(`helpers/fileset_comparator.py` lines 103-123): nothing when the threshold is
not positive; otherwise each missing file is matched against the new files
(`pool.map(self._match_file, files)` followed by the index loop that pairs
`files[i]` with a non-`None` `matched[i]` is the per-element join below). -/
def moved_file_pairs (env : Env) (cfg : Config) (missing new_files : List MFile) :
    List (MFile × MFile) :=
  if cfg.fuzzy_threshold ≤ 0 then
    []
  else
    missing.filterMap (fun f => (match_file env cfg f new_files).map (fun m => (f, m)))

/-- Translation of `FilesetComparator.removed_files`
(`helpers/fileset_comparator.py` lines 84-91): the missing files minus the
sources of the moved pairs; the set difference of `UnpackedFile` handles is
keyed by path (`__eq__` and `__hash__` compare `relative_path` only). -/
def removed_files (env : Env) (cfg : Config) (missing new_files : List MFile) :
    List MFile :=
  let moved := (moved_file_pairs env cfg missing new_files).map Prod.fst
  missing.filter (fun f => !(moved.any (fun m => m.path == f.path)))

/-- A comparable byte source: the size that `get_file_size` reports for it
(`none` encodes `FileNotFoundError` from `os.stat`) and the bytes a full read
or `cmp` observes at it. -/
structure Src where
  stat : Option Nat
  content : String
deriving DecidableEq

/-- Size of a comparable source with a default, mirroring
`get_file_size(path, default)` applied to the source's path. -/
def src_size (s : Src) (dflt : Int) : Int :=
  match s.stat with
  | some n => (n : Int)
  | none => dflt

/-- Raw on-disk source of a handle: what `file.path` denotes
(`UnpackedFile._comparable_path`, `files/generic.py` lines 85-94, is exactly
the raw path for the base class). -/
def raw_src (env : Env) (f : MFile) : Src :=
  ⟨env.stat f.path, env.content f.path⟩

/-- Text written by `SymlinkFile._comparable_path` (`files/symlink.py` lines
29-36) into its scratch file. -/
def symlink_target_text (env : Env) (p : String) : String :=
  "Target: " ++ env.readlink p

/-- Comparable source of a symlink handle: a fresh scratch file holding
exactly `"Target: <readlink result>"`; its stat size is the length of the
written text. -/
def symlink_src (env : Env) (f : MFile) : Src :=
  let t := symlink_target_text env f.path
  ⟨some t.length, t⟩

/-- Fixed allow-list `ElfFile.KEEP_SECTIONS` (`files/elf.py` lines 135-149). -/
def KEEP_SECTIONS : List String :=
  [".rodata", ".rodata1", ".data", ".data1", ".text", ".preinit_array",
   ".init", ".init_array", ".fini", ".fini_array", "<no-strings>", "<corrupt>"]

/-- Translation of `ElfFile._should_skip_section` (`files/elf.py` lines
198-199); the `type` argument is ignored, as in the source. -/
def should_skip_section (name _ty : String) : Bool :=
  !(KEEP_SECTIONS.contains name)

/-- Rows actually processed by the parsing loop of `ElfFile._load_sections`
(`files/elf.py` lines 219-241): rows are consumed in order and a row whose
parsing raises (`none`) aborts the loop — the surrounding `except Exception`
catches the error but the rows already added stay added. -/
def parsed_rows : List (Option ElfRow) → List ElfRow
  | [] => []
  | none :: _ => []
  | some r :: rest => r :: parsed_rows rest

/-- Sections recorded by `_load_sections` for a path: the successfully parsed
prefix of the section table, restricted by `_should_skip_section`. -/
def kept_sections (env : Env) (p : String) : List ElfRow :=
  (parsed_rows (env.elfRows p)).filter (fun r => !(should_skip_section r.name r.typ))

/-- Code sections of `ElfAnalyzer.add_section` (`files/elf.py` lines 27-31):
those whose flag string contains the character `X` (Python `"X" in flags`). -/
def code_section_names (ks : List ElfRow) : List String :=
  (ks.filter (fun r => r.flags.data.contains 'X')).map (fun r => r.name)

/-- Data sections of `ElfAnalyzer.add_section`: every kept section whose flag
string does not contain `X`. -/
def data_section_names (ks : List ElfRow) : List String :=
  (ks.filter (fun r => !(r.flags.data.contains 'X'))).map (fun r => r.name)

/-- Translation of `ElfAnalyzer.run` (`files/elf.py` lines 33-36): the
filtered hex-dump of all data sections followed by the filtered disassembly of
all code sections; `Command.run` returns an empty iterator when the section
list is empty (`make_cmd` returns `None`). -/
def elf_analyzer_run (env : Env) (p : String) (ks : List ElfRow) : String :=
  (if (data_section_names ks).isEmpty then "" else env.elfDataOut p (data_section_names ks)) ++
  (if (code_section_names ks).isEmpty then "" else env.elfCodeOut p (code_section_names ks))

/-- Translation of `ElfFile._comparable_path` (`files/elf.py` lines 177-196):
when the analyzer recorded no sections the raw file is compared; otherwise a
scratch file holding the analyzer output is compared. -/
def elf_src (env : Env) (f : MFile) : Src :=
  let ks := kept_sections env f.path
  if ks.isEmpty then
    raw_src env f
  else
    let out := elf_analyzer_run env f.path ks
    ⟨some out.length, out⟩

/-- Comparable byte source of a handle, dispatched on its concrete class
(`_comparable_path` of `UnpackedFile`, `SymlinkFile` and `ElfFile`). -/
def comparable_src (env : Env) (f : MFile) : Src :=
  match f.cls with
  | .generic => raw_src env f
  | .symlink => symlink_src env f
  | .elf => elf_src env f

/-- Translation of `FileComparator._compare_files`
(`helpers/file_comparator.py` lines 39-66): sizes are read with default `-1`;
a negative size (unreadable source) or a size mismatch means "different";
equal sizes up to 65536 bytes are compared by a full read, larger ones by
`cmp -s`, whose exit status 0 means byte-identical content. -/
def compare_files (s1 s2 : Src) : Bool :=
  let file1_size := src_size s1 (-1)
  let file2_size := src_size s2 (-1)
  if file1_size < 0 ∨ file2_size < 0 then
    false
  else if file1_size ≠ file2_size then
    false
  else if file2_size ≤ 65536 then
    decide (s1.content = s2.content)
  else
    decide (s1.content = s2.content)

/-- Translation of `has_same_content_as`: `ElfFile` (`files/elf.py` lines
157-175) first runs the quick whole-file comparison on the raw paths and only
on failure compares the filtered comparable sources; every other class
(`files/generic.py` lines 76-83) compares the two comparable sources
directly. -/
def has_same_content_as (env : Env) (file1 file2 : MFile) : Bool :=
  match file1.cls with
  | .elf =>
    if compare_files (raw_src env file1) (raw_src env file2) then
      true
    else
      compare_files (comparable_src env file1) (comparable_src env file2)
  | _ => compare_files (comparable_src env file1) (comparable_src env file2)

/-- Translation of `FileComparator.are_equal` (`helpers/file_comparator.py`
lines 32-36): delegate to the first handle's `has_same_content_as`. -/
def are_equal (env : Env) (file1 file2 : MFile) : Bool :=
  has_same_content_as env file1 file2

/-- Result of `os.stat` with its error cases distinguished, for the
error-propagation model of the equality comparator: success, the
`FileNotFoundError` that `get_file_size` catches, and any other `OSError`
(for example `PermissionError`), which nothing in `get_file_size` or
`_compare_files` catches. -/
inductive StatResult
  | ok (n : Nat)
  | errNotFound
  | errPerm
deriving DecidableEq

/-- Environment of the error-propagation model: `os.stat` outcomes and raw
contents by path. -/
structure EnvE where
  statE : String → StatResult
  contentE : String → String

/-- Exception-level translation of `get_file_size` (`helpers/utils.py` lines
63-72): only `FileNotFoundError` is caught and turned into the default; any
other `OSError` propagates (modelled as `Except.error`). -/
def get_file_size_exc (env : EnvE) (p : String) (dflt : Int) : Except Unit Int :=
  match env.statE p with
  | .ok n => .ok (n : Int)
  | .errNotFound => .ok dflt
  | .errPerm => .error ()

/-- Exception-level translation of `FileComparator._compare_files`
(`helpers/file_comparator.py` lines 39-66) for base-class handles (whose
comparable path is the raw path): both sizes are obtained first, then the
negative-size and size-mismatch rejections, then the content comparison. -/
def compare_files_exc (env : EnvE) (path1 path2 : String) : Except Unit Bool :=
  match get_file_size_exc env path1 (-1) with
  | .error e => .error e
  | .ok file1_size =>
    match get_file_size_exc env path2 (-1) with
    | .error e => .error e
    | .ok file2_size =>
      if file1_size < 0 ∨ file2_size < 0 then
        .ok false
      else if file1_size ≠ file2_size then
        .ok false
      else
        .ok (decide (env.contentE path1 = env.contentE path2))

theorem score_le_trans {α : Type} :
    ∀ a b c : (Int × α), score_le a b → score_le b c → score_le a c := by
  intro a b c hab hbc
  simp only [score_le, decide_eq_true_eq] at *
  omega

theorem score_le_total {α : Type} :
    ∀ a b : (Int × α), (score_le a b || score_le b a) = true := by
  intro a b
  simp only [score_le, Bool.or_eq_true, decide_eq_true_eq]
  omega

theorem mergeSort_head_min {α : Type} (l : List (Int × α)) (h : l ≠ []) :
    ∃ b t, l.mergeSort score_le = b :: t ∧ b ∈ l ∧ ∀ x ∈ l, b.1 ≤ x.1 := by
  have hperm := List.mergeSort_perm l score_le
  have hsorted := List.sorted_mergeSort score_le_trans score_le_total l
  match hm : l.mergeSort score_le with
  | [] =>
    rw [hm] at hperm
    exact absurd hperm.symm.eq_nil h
  | b :: t =>
    refine ⟨b, t, rfl, ?_, ?_⟩
    · exact hperm.mem_iff.mp (hm ▸ List.mem_cons_self b t)
    · intro x hx
      have hx2 : x ∈ b :: t := hm ▸ hperm.symm.mem_iff.mp hx
      rcases List.mem_cons.mp hx2 with h1 | h2
      · exact h1 ▸ le_refl _
      · rw [hm] at hsorted
        have := (List.pairwise_cons.mp hsorted).1 x h2
        simpa [score_le] using this

/-- Claim C1 theorem.  In move detection, whenever the same-class candidate
list is non-empty, there is a candidate `c` of minimal computed distance, and
`_match_file` returns exactly `c` when that minimal distance is strictly below
`fuzzy_threshold` and `None` otherwise; in particular a best candidate at
distance `threshold` is rejected and one at `threshold - 1` is accepted. -/
theorem move_match_accepts_iff_min_below_threshold (env : Env) (cfg : Config)
    (file : MFile) (file_set : List MFile)
    (hT : 0 < cfg.fuzzy_threshold)
    (hne : file_set.filter (fun f => files_classes_match file f) ≠ []) :
    ∃ c ∈ file_set.filter (fun f => files_classes_match file f),
      (∀ f ∈ file_set.filter (fun f => files_classes_match file f),
        compute_distance env file c ≤ compute_distance env file f) ∧
      match_file env cfg file file_set =
        (if compute_distance env file c < cfg.fuzzy_threshold then some c else none) := by
  set cands := file_set.filter (fun f => files_classes_match file f) with hcands
  set comparisons := cands.map (fun f => (compute_distance env file f, f)) with hcomp
  have hcne : comparisons ≠ [] := by
    intro hnil
    exact hne (List.map_eq_nil_iff.mp (hcomp ▸ hnil))
  obtain ⟨b, t, hsort, hmem, hmin⟩ := mergeSort_head_min comparisons hcne
  obtain ⟨bs, bc⟩ := b
  obtain ⟨f0, hf0, hb⟩ := List.mem_map.mp hmem
  have hbc : bc = f0 := by
    have := congrArg Prod.snd hb
    simpa using this.symm
  have hbs : bs = compute_distance env file f0 := by
    have := congrArg Prod.fst hb
    simpa using this.symm
  refine ⟨bc, hbc ▸ hf0, ?_, ?_⟩
  · intro f hf
    have hxin : (compute_distance env file f, f) ∈ comparisons :=
      List.mem_map.mpr ⟨f, hf, rfl⟩
    have h1 := hmin _ hxin
    simp only at h1
    rw [hbc, ← hbs]
    exact h1
  · have hdist : compute_distance env file bc = bs := by rw [hbc, hbs]
    rw [hdist]
    have hie : comparisons.isEmpty = false := by
      cases hc : comparisons with
      | nil => exact absurd hc hcne
      | cons x xs => rfl
    simp only [match_file]
    rw [← hcomp, hie]
    simp only [Bool.false_eq_true, if_false]
    rw [hsort]

/-- Neutral concrete environment used as the base of the concrete test
environments below: every path stats at 1024 bytes, contents are empty, tlsh
reports distance 0 and produces no digest, `cmp -l` output is empty, and no
ELF sections are reported. -/
def env0 : Env where
  stat := fun _ => some 1024
  content := fun _ => ""
  readlink := fun _ => ""
  tlshDiff := fun _ _ => 0
  tlshOf := fun _ => none
  cmpOutLen := fun _ _ => 0
  elfRows := fun _ => []
  elfDataOut := fun _ _ => ""
  elfCodeOut := fun _ _ => ""

/-- Default configuration: `fuzzy_threshold` is 80 (`helpers/config.py`). -/
def cfg80 : Config := ⟨80⟩

def digestA : String := "T1AAAA"

def digestB : String := "T1BBBB"

def pathA : String := "dir1/a.bin"

def pathB : String := "dir2/b.bin"

def fileA : MFile := ⟨pathA, FClass.generic, some digestA⟩

def fileB : MFile := ⟨pathB, FClass.generic, some digestB⟩

/-- Environment where the tlsh distance between any two digests is 79, one
below the default threshold. -/
def envDist79 : Env := { env0 with tlshDiff := fun _ _ => 79 }

/-- Environment where the tlsh distance between any two digests is exactly the
default threshold 80. -/
def envDist80 : Env := { env0 with tlshDiff := fun _ _ => 80 }

/-- Claim C1 witness: with one candidate at distance 79 = threshold - 1 the
match is accepted, and with the candidate at distance 80 = threshold it is
rejected. -/
theorem move_match_accepts_iff_min_below_threshold_witness :
    match_file envDist79 cfg80 fileA [fileB] = some fileB ∧
    match_file envDist80 cfg80 fileA [fileB] = none := by
  constructor
  · obtain ⟨c, hc, hmin, heq⟩ :=
      move_match_accepts_iff_min_below_threshold envDist79 cfg80 fileA [fileB]
        (by decide) (by decide)
    have hcf : c = fileB := by
      have h1 := (List.mem_filter.mp hc).1
      simpa using h1
    subst hcf
    rw [heq]
    decide
  · obtain ⟨c, hc, hmin, heq⟩ :=
      move_match_accepts_iff_min_below_threshold envDist80 cfg80 fileA [fileB]
        (by decide) (by decide)
    have hcf : c = fileB := by
      have h1 := (List.mem_filter.mp hc).1
      simpa using h1
    subst hcf
    rw [heq]
    decide

theorem match_file_mem_filter (env : Env) (cfg : Config) (file : MFile)
    (fs : List MFile) (c : MFile)
    (h : match_file env cfg file fs = some c) :
    c ∈ fs.filter (fun f => files_classes_match file f) := by
  set comparisons :=
    (fs.filter (fun f => files_classes_match file f)).map
      (fun f => (compute_distance env file f, f)) with hcomp
  simp only [match_file, ← hcomp] at h
  by_cases hie : comparisons.isEmpty = true
  · rw [if_pos hie] at h
    exact absurd h (by simp)
  · rw [if_neg hie] at h
    cases hm : comparisons.mergeSort score_le with
    | nil =>
      rw [hm] at h
      simp at h
    | cons b tail =>
      obtain ⟨bs, bc⟩ := b
      rw [hm] at h
      by_cases hlt : bs < cfg.fuzzy_threshold
      · simp only [if_pos hlt] at h
        have hbc : bc = c := by
          simpa using h
        have hbmem : (bs, bc) ∈ comparisons :=
          (List.mergeSort_perm comparisons score_le).mem_iff.mp
            (hm ▸ List.mem_cons_self _ _)
        obtain ⟨f0, hf0, hb⟩ := List.mem_map.mp hbmem
        have : f0 = c := by
          have := congrArg Prod.snd hb
          simpa [hbc] using this
        exact this ▸ hf0
      · simp only [if_neg hlt] at h
        exact absurd h (by simp)

/-- Claim C2 theorem.  Every pair accepted by move detection joins a source
and a target of the same concrete specialized class: `_match_file` only scores
candidates that pass `_files_classes_match`. -/
theorem moved_pair_classes_match (env : Env) (cfg : Config)
    (missing new_files : List MFile) (s t : MFile)
    (h : (s, t) ∈ moved_file_pairs env cfg missing new_files) :
    t.cls = s.cls := by
  unfold moved_file_pairs at h
  by_cases hth : cfg.fuzzy_threshold ≤ 0
  · rw [if_pos hth] at h
    exact absurd h (List.not_mem_nil _)
  · rw [if_neg hth] at h
    obtain ⟨f, hf, hopt⟩ := List.mem_filterMap.mp h
    obtain ⟨m, hm, hfm⟩ := Option.map_eq_some'.mp hopt
    have hfs : f = s := by
      have := congrArg Prod.fst hfm
      simpa using this
    have hmt : m = t := by
      have := congrArg Prod.snd hfm
      simpa using this
    have hmemf := match_file_mem_filter _ _ _ _ _ hm
    have hcm := (List.mem_filter.mp hmemf).2
    have hbeq : f.cls = m.cls := by
      simpa [files_classes_match, beq_iff_eq] using hcm
    rw [← hmt, ← hfs]
    exact hbeq.symm

/-- ELF-classed pair used for the C2 witness. -/
def elfS : MFile := ⟨pathA, FClass.elf, some digestA⟩

/-- ELF-classed move target used for the C2 witness. -/
def elfT : MFile := ⟨pathB, FClass.elf, some digestB⟩

/-- Non-ELF candidate used for the C2 witness. -/
def plainU : MFile := ⟨pathB, FClass.generic, some digestB⟩

unseal List.merge List.mergeSort in
/-- Claim C2 witness: in a concrete run whose candidate set holds an ELF file
and a generic file, the ELF missing file is paired with the ELF candidate, and
the accepted pair has matching classes by the theorem. -/
theorem moved_pair_classes_match_witness :
    (elfS, elfT) ∈ moved_file_pairs envDist79 cfg80 [elfS] [plainU, elfT] ∧
    elfT.cls = elfS.cls := by
  have hmem : (elfS, elfT) ∈ moved_file_pairs envDist79 cfg80 [elfS] [plainU, elfT] := by
    decide
  exact ⟨hmem, moved_pair_classes_match envDist79 cfg80 [elfS] [plainU, elfT] elfS elfT hmem⟩

def pathN : String := "old/n.bin"

def pathM : String := "new/m.bin"

/-- Missing-side handle whose memoized fuzzy hash is `None`. -/
def fileN : MFile := ⟨pathN, FClass.generic, none⟩

/-- New-side candidate handle, also without a fuzzy hash. -/
def fileM : MFile := ⟨pathM, FClass.generic, none⟩

/-- Environment for the C3 refutation: `cmp -l` reports 16 bytes of output, so
the byte-diff fallback distance is `max(int(160 / 1024), 1) = 1 < 80`. -/
def envC3 : Env := { env0 with cmpOutLen := fun _ _ => 16 }

unseal List.merge List.mergeSort in
/-- Claim C3 counterexample: a Missing-side file with `fuzzy_hash = None` is
not skipped by `_match_file` (the current `helpers/fileset_comparator.py` has
no `fuzzy_hash is None` guard): the byte-diff fallback distance 1 is below the
threshold, so the file becomes the source of a moved pair and is absent from
`removed_files`. -/
theorem none_hash_skipped_counterexample :
    fileN.fuzzyHash = none ∧
    moved_file_pairs envC3 cfg80 [fileN] [fileM] = [(fileN, fileM)] ∧
    removed_files envC3 cfg80 [fileN] [fileM] = [] := by
  refine ⟨rfl, ?_, ?_⟩ <;> decide

/-- Claim C3 amended theorem.  A Missing-side file with an undefined fuzzy
hash is not skipped: its distances are computed through the byte-diff
fallback, and whenever `_match_file` accepts a candidate for it the file is
the source of a moved pair and is excluded from `removed_files`.  (Only the
legacy flat-layout `fileset_comparator.py` returned early on
`fuzzy_hash is None`.) -/
theorem none_hash_not_skipped (env : Env) (cfg : Config) (A c : MFile)
    (missing new_files : List MFile)
    (hA : A.fuzzyHash = none) (hmem : A ∈ missing)
    (hT : 0 < cfg.fuzzy_threshold)
    (hsome : match_file env cfg A new_files = some c) :
    (A, c) ∈ moved_file_pairs env cfg missing new_files ∧
    A ∉ removed_files env cfg missing new_files ∧
    compute_distance env A c = fallback_distance env A.path c.path := by
  have hth : ¬ cfg.fuzzy_threshold ≤ 0 := by omega
  have hpair : (A, c) ∈ moved_file_pairs env cfg missing new_files := by
    unfold moved_file_pairs
    rw [if_neg hth]
    exact List.mem_filterMap.mpr ⟨A, hmem, by rw [hsome]; rfl⟩
  refine ⟨hpair, ?_, ?_⟩
  · intro habs
    have hfilt := (List.mem_filter.mp habs).2
    have hsrc : A ∈ (moved_file_pairs env cfg missing new_files).map Prod.fst :=
      List.mem_map.mpr ⟨(A, c), hpair, rfl⟩
    have hany : ((moved_file_pairs env cfg missing new_files).map Prod.fst).any
        (fun m => m.path == A.path) = true :=
      List.any_eq_true.mpr ⟨A, hsrc, by simp⟩
    rw [removed_files] at habs
    have := (List.mem_filter.mp habs).2
    simp only [hany] at this
    exact absurd this (by simp)
  · cases hc : c.fuzzyHash <;> simp [compute_distance, hA, hc]

unseal List.merge List.mergeSort in
/-- Claim C3 amended witness: the concrete none-hash file `fileN` is accepted
against `fileM`, appears as a moved source and is excluded from
`removed_files`, with its distance coming from the byte-diff fallback. -/
theorem none_hash_not_skipped_witness :
    (fileN, fileM) ∈ moved_file_pairs envC3 cfg80 [fileN] [fileM] ∧
    fileN ∉ removed_files envC3 cfg80 [fileN] [fileM] ∧
    compute_distance envC3 fileN fileM = fallback_distance envC3 fileN.path fileM.path :=
  none_hash_not_skipped envC3 cfg80 fileN fileM [fileN] [fileM]
    rfl (by decide) (by decide) (by decide)

theorem compute_distance_eq_fallback (env : Env) (f1 f2 : MFile)
    (h : f1.fuzzyHash = none ∨ f2.fuzzyHash = none) :
    compute_distance env f1 f2 = fallback_distance env f1.path f2.path := by
  rcases h with h | h
  · cases hc : f2.fuzzyHash <;> simp [compute_distance, h, hc]
  · cases hc : f1.fuzzyHash <;> simp [compute_distance, h, hc]

/-- Refinement definition following the words of the specification, not the
source: the fallback distance written as
`round(10 * diff_report_size / max(1, max(file_size_A, file_size_B)))` with
true rounding, clamped to a minimum of 1.  To be compared against
`fallback_distance`, which is translated from the code. -/
def fallback_distance_round_spec (diffLen szA szB : Nat) : Int :=
  max (round ((10 * (diffLen : ℚ)) / (max 1 (max (szA : ℚ) (szB : ℚ))))) 1

def pathD1 : String := "d/one.bin"

def pathD2 : String := "d/two.bin"

/-- Hashless handle of size 24 used for the C4 refutation. -/
def fileD1 : MFile := ⟨pathD1, FClass.generic, none⟩

/-- Handle of size 20 used for the C4 refutation. -/
def fileD2 : MFile := ⟨pathD2, FClass.generic, some digestB⟩

/-- Environment for the C4 refutation: sizes 24 and 20, `cmp -l` output
length 18, so `10 * 18 / 24 = 7.5`: the code truncates to 7, the claimed
formula rounds to 8. -/
def envC4 : Env :=
  { env0 with
    stat := fun p => if p == pathD1 then some 24 else some 20
    cmpOutLen := fun _ _ => 18 }

/-- Claim C4 counterexample: with one digest absent, file sizes 24 and 20 and
an 18-byte `cmp -l` report, the code computes `int(180 / 24) = 7` while the
claimed `round(180 / 24) = 8`: the fallback truncates, it does not round. -/
theorem fallback_round_formula_counterexample :
    fileD1.fuzzyHash = none ∧
    compute_distance envC4 fileD1 fileD2 = 7 ∧
    fallback_distance_round_spec 18 24 20 = 8 := by
  refine ⟨rfl, by decide, ?_⟩
  norm_num [fallback_distance_round_spec, round_eq]

/-- Claim C4 amended theorem.  Whenever either fuzzy digest is absent,
`compute_distance` returns the byte-diff fallback
`max(int(10 * diff_report_size / max(1, max(size_A, size_B))), 1)` — `int()`
truncation (floor), not rounding — and the result is always at least 1. -/
theorem fallback_distance_floor_and_min_one (env : Env) (f1 f2 : MFile)
    (h : f1.fuzzyHash = none ∨ f2.fuzzyHash = none) :
    compute_distance env f1 f2 =
      max ((10 * (env.cmpOutLen f1.path f2.path : Int)) /
        (max 1 (max (get_file_size env f1.path 0) (get_file_size env f2.path 0)))) 1 ∧
    1 ≤ compute_distance env f1 f2 := by
  have heq := compute_distance_eq_fallback env f1 f2 h
  refine ⟨heq, ?_⟩
  rw [heq]
  exact le_max_right _ _

/-- Claim C4 amended witness: at the concrete C4 environment the distance is
the floored fallback value and is at least 1. -/
theorem fallback_distance_floor_and_min_one_witness :
    compute_distance envC4 fileD1 fileD2 =
      max ((10 * (envC4.cmpOutLen fileD1.path fileD2.path : Int)) /
        (max 1 (max (get_file_size envC4 fileD1.path 0) (get_file_size envC4 fileD2.path 0)))) 1 ∧
    1 ≤ compute_distance envC4 fileD1 fileD2 :=
  fallback_distance_floor_and_min_one envC4 fileD1 fileD2 (Or.inl rfl)

/-- Claim C5 theorem.  `compute_fuzzy_hash` returns `None` for every file
whose size (with the 0 default for missing files) is below 512 bytes; for a
file of at least 512 bytes it returns `None` exactly when digest finalization
fails (`hexdigest` raising for insufficient randomness) and otherwise the
defined digest. -/
theorem fuzzy_hash_minimum_size (env : Env) (p : String) :
    (get_file_size env p 0 < 512 → compute_fuzzy_hash env p = none) ∧
    (512 ≤ get_file_size env p 0 → env.tlshOf (env.content p) = none →
      compute_fuzzy_hash env p = none) ∧
    (512 ≤ get_file_size env p 0 → ∀ d, env.tlshOf (env.content p) = some d →
      compute_fuzzy_hash env p = some d) := by
  unfold compute_fuzzy_hash
  refine ⟨?_, ?_, ?_⟩
  · intro h
    rw [if_neg (by omega)]
  · intro h hd
    rw [if_pos h, hd]
  · intro h d hd
    rw [if_pos h, hd]

/-- Environment with a 511-byte file whose content would hash fine. -/
def env511 : Env := { env0 with stat := fun _ => some 511, tlshOf := fun _ => some digestA }

/-- Environment with a 512-byte sufficiently random file. -/
def env512 : Env := { env0 with stat := fun _ => some 512, tlshOf := fun _ => some digestA }

/-- Environment with a 512-byte file on which digest finalization fails. -/
def env512flat : Env := { env0 with stat := fun _ => some 512 }

/-- Claim C5 witness: a 511-byte file hashes to `None`, a 512-byte random file
to a defined digest, and a 512-byte low-entropy file to `None`. -/
theorem fuzzy_hash_minimum_size_witness :
    compute_fuzzy_hash env511 pathA = none ∧
    compute_fuzzy_hash env512 pathA = some digestA ∧
    compute_fuzzy_hash env512flat pathA = none :=
  ⟨(fuzzy_hash_minimum_size env511 pathA).1 (by decide),
   (fuzzy_hash_minimum_size env512 pathA).2.2 (by decide) digestA rfl,
   (fuzzy_hash_minimum_size env512flat pathA).2.1 (by decide) rfl⟩

/-- Claim C10 theorem.  When either fuzzy digest is absent the fallback
distance is computed over the handles' raw on-disk paths (`file.path`): it
equals the byte-diff formula over `cmp -l path1 path2` and the raw stat sizes,
and it is invariant under any change of the readlink results that determine
the synthesized `Target: ...` comparable blobs. -/
theorem fallback_distance_uses_raw_paths (env : Env) (f1 f2 : MFile)
    (h1 : f1.cls = FClass.symlink) (h2 : f2.cls = FClass.symlink)
    (hh : f1.fuzzyHash = none ∨ f2.fuzzyHash = none) :
    compute_distance env f1 f2 =
      max ((10 * (env.cmpOutLen f1.path f2.path : Int)) /
        (max 1 (max (get_file_size env f1.path 0) (get_file_size env f2.path 0)))) 1 ∧
    ∀ rl : String → String,
      compute_distance { env with readlink := rl } f1 f2 = compute_distance env f1 f2 := by
  refine ⟨compute_distance_eq_fallback env f1 f2 hh, ?_⟩
  intro rl
  rfl

def pathL1 : String := "old/link1"

def pathL2 : String := "new/link1"

/-- Symlink handle on the missing side; its fuzzy hash is `None` (the
`Target:` blob is far below 512 bytes). -/
def linkF1 : MFile := ⟨pathL1, FClass.symlink, none⟩

/-- Symlink handle on the new side. -/
def linkF2 : MFile := ⟨pathL2, FClass.symlink, none⟩

/-- Claim C10 witness: for two concrete symlink handles the distance is the
raw-path fallback value and does not change when every readlink result is
replaced by a different target. -/
theorem fallback_distance_uses_raw_paths_witness :
    compute_distance envC3 linkF1 linkF2 =
      max ((10 * (envC3.cmpOutLen linkF1.path linkF2.path : Int)) /
        (max 1 (max (get_file_size envC3 linkF1.path 0) (get_file_size envC3 linkF2.path 0)))) 1 ∧
    ∀ rl : String → String,
      compute_distance { envC3 with readlink := rl } linkF1 linkF2 =
        compute_distance envC3 linkF1 linkF2 :=
  fallback_distance_uses_raw_paths envC3 linkF1 linkF2 rfl rfl (Or.inl rfl)

/-- Claim C6 amended theorem.  `_compare_files` returns `False` without
raising when either side's size read raises `FileNotFoundError` (broken
symlink target, file deleted) — provided the other side's stat does not itself
raise an uncaught error — and returns `False` immediately when the two sizes
differ.  (An uncaught `OSError` such as `PermissionError` propagates instead:
see the counterexample.) -/
theorem compare_files_not_found_or_size_mismatch_false (env : EnvE) (p1 p2 : String) :
    (env.statE p1 = StatResult.errNotFound → env.statE p2 ≠ StatResult.errPerm →
      compare_files_exc env p1 p2 = Except.ok false) ∧
    (env.statE p2 = StatResult.errNotFound → env.statE p1 ≠ StatResult.errPerm →
      compare_files_exc env p1 p2 = Except.ok false) ∧
    (∀ n1 n2 : Nat, env.statE p1 = StatResult.ok n1 → env.statE p2 = StatResult.ok n2 →
      n1 ≠ n2 → compare_files_exc env p1 p2 = Except.ok false) := by
  refine ⟨?_, ?_, ?_⟩
  · intro h1 h2
    cases hp2 : env.statE p2 with
    | ok n =>
      simp only [compare_files_exc, get_file_size_exc, h1, hp2]
      norm_num
    | errNotFound =>
      simp only [compare_files_exc, get_file_size_exc, h1, hp2]
      norm_num
    | errPerm => exact absurd hp2 h2
  · intro h2 h1
    cases hp1 : env.statE p1 with
    | ok n =>
      simp only [compare_files_exc, get_file_size_exc, h2, hp1]
      norm_num
    | errNotFound =>
      simp only [compare_files_exc, get_file_size_exc, h2, hp1]
      norm_num
    | errPerm => exact absurd hp1 h1
  · intro n1 n2 h1 h2 hne
    simp only [compare_files_exc, get_file_size_exc, h1, h2]
    have hc1 : ¬((n1 : Int) < 0 ∨ (n2 : Int) < 0) := by omega
    have hc2 : (n1 : Int) ≠ (n2 : Int) := by exact_mod_cast hne
    simp [hc1, hc2]

def pOk : String := "tree/ok.bin"

def pBig : String := "tree/big.bin"

def pNF : String := "tree/gone.bin"

def pPerm : String := "tree/forbidden.bin"

/-- Concrete stat environment for C6: one readable 100-byte file, one readable
200-byte file, one vanished file and one permission-denied file. -/
def envE6 : EnvE where
  statE := fun p =>
    if p == pPerm then StatResult.errPerm
    else if p == pNF then StatResult.errNotFound
    else if p == pBig then StatResult.ok 200
    else StatResult.ok 100
  contentE := fun _ => ""

/-- Claim C6 counterexample: when one side's stat raises `PermissionError`,
`get_file_size` does not catch it (only `FileNotFoundError` is caught), so
`_compare_files` raises instead of returning `False`. -/
theorem unreadable_permission_raises_counterexample :
    compare_files_exc envE6 pOk pPerm = Except.error () ∧
    compare_files_exc envE6 pOk pPerm ≠ Except.ok false := by
  refine ⟨rfl, ?_⟩
  intro h
  exact Except.noConfusion
    ((rfl : compare_files_exc envE6 pOk pPerm = Except.error ()).symm.trans h)

/-- Claim C6 amended witness: a vanished file compares as `False` without an
error, and two readable files of different sizes compare as `False`. -/
theorem compare_files_not_found_or_size_mismatch_false_witness :
    compare_files_exc envE6 pNF pOk = Except.ok false ∧
    compare_files_exc envE6 pOk pBig = Except.ok false :=
  ⟨(compare_files_not_found_or_size_mismatch_false envE6 pNF pOk).1 (by decide) (by decide),
   (compare_files_not_found_or_size_mismatch_false envE6 pOk pBig).2.2 100 200
     (by decide) (by decide) (by decide)⟩

theorem compare_files_self (s : Src) (n : Nat) (h : s.stat = some n) :
    compare_files s s = true := by
  simp only [compare_files, src_size, h]
  have h0 : ¬((n : Int) < 0 ∨ (n : Int) < 0) := by omega
  rw [if_neg h0, if_neg (by simp), ite_self]
  simp

theorem compare_files_symm (s1 s2 : Src) :
    compare_files s1 s2 = compare_files s2 s1 := by
  simp only [compare_files]
  by_cases h1 : src_size s1 (-1) < 0 ∨ src_size s2 (-1) < 0
  · rw [if_pos h1, if_pos (Or.symm h1)]
  · rw [if_neg h1, if_neg (fun hc => h1 (Or.symm hc))]
    by_cases h2 : src_size s1 (-1) ≠ src_size s2 (-1)
    · rw [if_pos h2, if_pos (Ne.symm h2)]
    · rw [if_neg h2, if_neg (fun hc => h2 (Ne.symm hc))]
      push_neg at h2
      rw [h2, ite_self, ite_self]
      simp [eq_comm]

/-- Claim C7 amended theorem.  `are_equal(f, f)` is `True` for every handle
whose raw path is statable, and `are_equal` is symmetric for every pair of
handles of the same concrete class.  (An unreadable handle is unequal even to
itself, and a mixed ELF/generic pair can be asymmetric: see the
counterexample.) -/
theorem are_equal_refl_and_symm (env : Env) :
    (∀ (f : MFile) (n : Nat), env.stat f.path = some n → are_equal env f f = true) ∧
    (∀ a b : MFile, a.cls = b.cls → are_equal env a b = are_equal env b a) := by
  constructor
  · intro f n h
    unfold are_equal has_same_content_as
    cases hc : f.cls with
    | elf =>
      simp only [hc]
      rw [compare_files_self (raw_src env f) n (by simpa [raw_src] using h)]
      simp
    | generic =>
      simp only [hc, comparable_src]
      exact compare_files_self (raw_src env f) n (by simpa [raw_src] using h)
    | symlink =>
      simp only [hc, comparable_src]
      exact compare_files_self (symlink_src env f) _ rfl
  · intro a b hcls
    unfold are_equal has_same_content_as
    cases hc : a.cls with
    | elf =>
      rw [hcls] at hc
      simp only [hcls, hc]
      rw [compare_files_symm (raw_src env a) (raw_src env b),
        compare_files_symm (comparable_src env a) (comparable_src env b)]
    | generic =>
      rw [hcls] at hc
      simp only [hcls, hc]
      exact compare_files_symm _ _
    | symlink =>
      rw [hcls] at hc
      simp only [hcls, hc]
      exact compare_files_symm _ _

def pBroken : String := "tree/dangling"

/-- Generic handle whose raw path cannot be statted. -/
def fBroken : MFile := ⟨pBroken, FClass.generic, none⟩

def pE7 : String := "tree/prog.elf"

def pG7 : String := "tree/prog.copy"

/-- ELF-classed handle for the C7 and C9 refutations. -/
def fElf7 : MFile := ⟨pE7, FClass.elf, none⟩

/-- Generic handle holding bytes identical to the ELF handle's. -/
def fGen7 : MFile := ⟨pG7, FClass.generic, none⟩

/-- An executable `.text` section row as parsed from `readelf`. -/
def rowText : ElfRow := ⟨".text", "PROGBITS", "AX"⟩

/-- Environment for the C7 refutation: every statable file holds the 4 bytes
`abcd`, `tree/dangling` cannot be statted, and the ELF file has a `.text`
section whose filtered disassembly is the 3 bytes `xyz`. -/
def envC7 : Env :=
  { env0 with
    stat := fun p => if p == pBroken then none else some 4
    content := fun _ => "abcd"
    elfRows := fun p => if p == pE7 then [some rowText] else []
    elfCodeOut := fun _ _ => "xyz" }

/-- Claim C7 counterexample: `are_equal` is not reflexive on an unreadable
handle, and not symmetric on a mixed ELF/generic pair with byte-identical
contents (the ELF side's quick raw comparison succeeds, the generic side
compares raw bytes against the ELF's filtered section dump). -/
theorem are_equal_refl_symm_counterexample :
    are_equal envC7 fBroken fBroken = false ∧
    are_equal envC7 fElf7 fGen7 = true ∧
    are_equal envC7 fGen7 fElf7 = false := by
  refine ⟨?_, ?_, ?_⟩ <;> decide

/-- Claim C7 amended witness: a statable handle is equal to itself, and
symmetry holds for a concrete same-class pair. -/
theorem are_equal_refl_and_symm_witness :
    are_equal env0 fileA fileA = true ∧
    are_equal envC7 fGen7 fBroken = are_equal envC7 fBroken fGen7 :=
  ⟨(are_equal_refl_and_symm env0).1 fileA 1024 rfl,
   (are_equal_refl_and_symm envC7).2 fGen7 fBroken rfl⟩

theorem target_text_inj (a b : String) :
    ("Target: " ++ a = "Target: " ++ b) ↔ a = b := by
  constructor
  · intro h
    have hd := congrArg String.data h
    rw [String.data_append, String.data_append] at hd
    exact String.ext (List.append_cancel_left hd)
  · intro h
    rw [h]

/-- Claim C8 theorem.  A symlink handle's comparable byte stream is exactly
the text `Target: <readlink result>`; two symlink handles compare equal
precisely when their readlink targets coincide; and the comparison result is
unchanged under any modification of the environment that keeps the readlink
results — the targets are never opened or statted. -/
theorem symlink_compared_by_target (env : Env) (s1 s2 : MFile)
    (h1 : s1.cls = FClass.symlink) (h2 : s2.cls = FClass.symlink) :
    (comparable_src env s1).content = "Target: " ++ env.readlink s1.path ∧
    (are_equal env s1 s2 = true ↔ env.readlink s1.path = env.readlink s2.path) ∧
    (∀ env' : Env, env'.readlink = env.readlink →
      are_equal env' s1 s2 = are_equal env s1 s2) := by
  refine ⟨?_, ?_, ?_⟩
  · simp [comparable_src, h1, symlink_src, symlink_target_text]
  · unfold are_equal has_same_content_as
    simp only [h1]
    simp only [comparable_src, h1, h2, symlink_src, symlink_target_text]
    set ta := env.readlink s1.path with hta
    set tb := env.readlink s2.path with htb
    simp only [compare_files, src_size]
    have hgt : ¬(((("Target: " ++ ta).length : Int)) < 0 ∨
        ((("Target: " ++ tb).length : Int)) < 0) := by
      omega
    rw [if_neg hgt]
    by_cases hlen : (("Target: " ++ ta).length : Int) = (("Target: " ++ tb).length : Int)
    · rw [if_neg (by simpa using hlen), ite_self]
      simp [target_text_inj]
    · rw [if_pos (by simpa using hlen)]
      constructor
      · intro hfalse
        exact absurd hfalse (by simp)
      · intro htab
        exact absurd (by rw [htab]) hlen
  · intro env' henv
    unfold are_equal has_same_content_as
    simp only [h1]
    simp only [comparable_src, h1, h2, symlink_src, symlink_target_text, henv]

def targetA : String := "/a"

def targetB : String := "/b"

/-- Environment whose readlink reports `/a` for the old link and `/b` for the
new one. -/
def envL : Env :=
  { env0 with readlink := fun p => if p == pathL1 then targetA else targetB }

/-- Claim C8 witness: the comparable stream of the old link is the text
`Target: /a`, and the two links with targets `/a` and `/b` compare unequal. -/
theorem symlink_compared_by_target_witness :
    (comparable_src envL linkF1).content = "Target: /a" ∧
    are_equal envL linkF1 linkF2 = false := by
  have h := symlink_compared_by_target envL linkF1 linkF2 rfl rfl
  refine ⟨?_, ?_⟩
  · rw [h.1]
    decide
  · have hne : ¬(envL.readlink linkF1.path = envL.readlink linkF2.path) := by decide
    cases hb : are_equal envL linkF1 linkF2 with
    | false => rfl
    | true => exact absurd (h.2.1.mp hb) hne

/-- Claim C9 amended theorem.  An ELF handle's comparable stream degenerates
to the raw file exactly when no kept section was recorded — because every
successfully parsed row was filtered out, or because parsing failed before the
first kept row; rows parsed before a mid-table failure stay recorded, and with
at least one kept section the comparable stream is the analyzer output, not
the raw bytes. -/
theorem elf_comparable_degenerates_iff_no_kept_sections (env : Env) (f : MFile)
    (hf : f.cls = FClass.elf) :
    (kept_sections env f.path = [] → comparable_src env f = raw_src env f) ∧
    (kept_sections env f.path ≠ [] →
      comparable_src env f =
        ⟨some (elf_analyzer_run env f.path (kept_sections env f.path)).length,
         elf_analyzer_run env f.path (kept_sections env f.path)⟩) := by
  constructor
  · intro h
    simp [comparable_src, hf, elf_src, h]
  · intro h
    have hie : (kept_sections env f.path).isEmpty = false := by
      cases hk : kept_sections env f.path with
      | nil => exact absurd hk h
      | cons x xs => rfl
    simp [comparable_src, hf, elf_src, hie]

/-- Environment for the C9 refutation: the section table of `tree/prog.elf`
has a well-formed executable `.text` row followed by a row whose parsing
raises; the filtered disassembly output is `xyz` while the raw file holds
`abcd`. -/
def envC9 : Env :=
  { env0 with
    content := fun _ => "abcd"
    elfRows := fun p => if p == pE7 then [some rowText, none] else []
    elfCodeOut := fun _ _ => "xyz" }

/-- Claim C9 counterexample: parsing of the section table fails (the second
row raises), yet the comparable stream is the `.text` dump recorded before the
failure, not the raw file bytes. -/
theorem parse_failure_not_raw_counterexample :
    (envC9.elfRows fElf7.path).contains none = true ∧
    comparable_src envC9 fElf7 ≠ raw_src envC9 fElf7 := by
  refine ⟨?_, ?_⟩ <;> decide

/-- ELF handle whose section table is empty under `envC9`. -/
def fElfEmpty : MFile := ⟨pathB, FClass.elf, none⟩

/-- Claim C9 amended witness: with no kept section the comparable source is
the raw file, and with a kept `.text` section it is the analyzer output. -/
theorem elf_comparable_degenerates_iff_no_kept_sections_witness :
    comparable_src envC9 fElfEmpty = raw_src envC9 fElfEmpty ∧
    comparable_src envC9 fElf7 = ⟨some 3, "xyz"⟩ := by
  constructor
  · exact (elf_comparable_degenerates_iff_no_kept_sections envC9 fElfEmpty rfl).1 (by decide)
  · have h := (elf_comparable_degenerates_iff_no_kept_sections envC9 fElf7 rfl).2 (by decide)
    rw [h]
    decide

end Diffware
